import Mathlib

/-!
Verification of the GSP_L2 teaching notebooks (geopandas vector-data processing).

The repository consists of four Jupyter notebooks:
* a vector-data I/O notebook (fiona/geopandas reads and writes, a WFS
  network-fetch cell with a coordinate-axis-swap fix),
* a file-path management notebook (pathlib conventions),
* a geopandas processing notebook (column selection/renaming, areas, a
  groupby fan-out that writes one shapefile per land-use class, per-class
  area sums saved to CSV),
* a CRS notebook (re-projection and conversion between CRS descriptors).

This file gives a shallow embedding of the data model and the operations those
notebooks perform, and proves the claims made about them.  A GeoDataFrame row of
the land-use data set (after the column select and rename cells) is modelled as
a record with an `ID_CLASS` code, a `CLASS_NAME` string and a polygon geometry;
geometries carry exact integer vertex coordinates and their area is the shoelace
area, the mathematical function the geometry library computes.
-/

namespace GSPL2

/-! ## Geometries and points -/

/-- A polygon geometry: the list of vertices of its exterior ring, with exact
integer coordinates.  (The notebooks' land-use polygons carry only an exterior
ring; the area of such a polygon is the shoelace area.) -/
structure Geometry where
  ring : List (Int × Int)
deriving DecidableEq, Repr

/-- Sum of the cross terms `x_i * y_(i+1) - x_(i+1) * y_i` along the ring,
closing back to the first vertex. -/
def shoelace (first : Int × Int) : List (Int × Int) → Int
  | [] => 0
  | [p] => p.1 * first.2 - first.1 * p.2
  | p :: q :: rest => (p.1 * q.2 - q.1 * p.2) + shoelace first (q :: rest)

/-- The area of a polygon geometry (the `.area` property of a shapely
geometry): half the absolute value of the shoelace sum. -/
def Geometry.area : Geometry → Rat
  | ⟨[]⟩ => 0
  | ⟨p :: rest⟩ => ((shoelace p (p :: rest)).natAbs : Rat) / 2

/-- A point geometry as produced by `shapely.geometry.Point`: an `x` and a `y`
coordinate, and optionally a `z` coordinate (`has_z` tells whether the third
coordinate is present). -/
structure Point where
  x : Rat
  y : Rat
  z : Option Rat
deriving DecidableEq, Repr

/-- The `has_z` property of a shapely point. -/
def Point.hasZ (p : Point) : Bool := p.z.isSome

/-- The coordinate-axis-swap correction of the WFS fetch cell:
`lambda geom: Point(geom.y, geom.x, geom.z) if geom.has_z else Point(geom.y, geom.x)`. -/
def swapXY (geom : Point) : Point :=
  if geom.hasZ then ⟨geom.y, geom.x, geom.z⟩ else ⟨geom.y, geom.x, none⟩

/-- The `.apply` of the swap lambda over the geometry column:
`data["geometry"] = data["geometry"].apply(lambda geom: ...)`. -/
def swapColumn (geoms : List Point) : List Point := geoms.map swapXY

/-- Claim C2: the coordinate-axis-swap correction maps every point `(x, y)` to
`(y, x)` and every point `(x, y, z)` to `(y, x, z)`: it exchanges the first two
coordinates and preserves the `z` coordinate when one is present; applied over
the geometry column it does so for every feature. -/
theorem c2_swap_exchanges_xy_preserves_z :
    (∀ x y : Rat, swapXY ⟨x, y, none⟩ = ⟨y, x, none⟩) ∧
    (∀ x y z : Rat, swapXY ⟨x, y, some z⟩ = ⟨y, x, some z⟩) ∧
    (∀ geoms : List Point, swapColumn geoms = geoms.map swapXY) := by
  refine ⟨fun x y => ?_, fun x y z => ?_, fun geoms => rfl⟩ <;>
    simp [swapXY, Point.hasZ]

/-- Claim C9: the coordinate-axis-swap is an involution on point geometries:
applying it twice returns every point (with or without a `z` coordinate) to its
original value. -/
theorem c9_swap_involution : ∀ p : Point, swapXY (swapXY p) = p := by
  intro ⟨x, y, z⟩
  cases z <;> simp [swapXY, Point.hasZ]

/-! ## The land-use data set

A row of the processing notebook's data set after the cells
`data_set = data_set[['KKOD', 'KATEGORI', "geometry"]]` and
`data_set = data_set.rename(columns={"KKOD": "ID_CLASS", "KATEGORI": "CLASS_NAME"})`:
an integer class code, a class-name string and a polygon geometry. -/

/-- A row of the land-use data set (schema after select and rename). -/
structure LandUseRow where
  id_class : Int
  class_name : String
  geometry : Geometry
deriving DecidableEq, Repr

/-- Lexicographic comparison of char lists by code point (the order pandas uses
on string group keys). -/
def lexLeChars : List Char → List Char → Bool
  | [], _ => true
  | _ :: _, [] => false
  | a :: as, b :: bs =>
    if a.toNat < b.toNat then true
    else if a.toNat = b.toNat then lexLeChars as bs
    else false

/-- Lexicographic comparison of strings. -/
def strLe (a b : String) : Bool := lexLeChars a.data b.data

/-- Insert a string into a sorted list of strings. -/
def insertSorted (s : String) : List String → List String
  | [] => [s]
  | t :: ts => if strLe s t then s :: t :: ts else t :: insertSorted s ts

/-- Insertion sort on strings (pandas `groupby` iterates keys in sorted order,
its default `sort=True`). -/
def sortStrings : List String → List String
  | [] => []
  | s :: ss => insertSorted s (sortStrings ss)

theorem insertSorted_perm (s : String) : ∀ l, (insertSorted s l).Perm (s :: l)
  | [] => List.Perm.refl _
  | t :: ts => by
    unfold insertSorted
    by_cases h : strLe s t = true
    · simp [h]
    · simp only [h, if_false, Bool.false_eq_true]
      exact ((insertSorted_perm s ts).cons t).trans (List.Perm.swap s t ts)

theorem sortStrings_perm : ∀ l : List String, (sortStrings l).Perm l
  | [] => List.Perm.refl _
  | s :: ss => (insertSorted_perm s (sortStrings ss)).trans ((sortStrings_perm ss).cons s)

/-- The distinct values of the `CLASS_NAME` column, in the order in which
pandas `groupby` iterates them (sorted). -/
def classNameKeys (rows : List LandUseRow) : List String :=
  sortStrings (rows.map (fun r => r.class_name)).dedup

/-- `data_set.groupby("CLASS_NAME")`: one group per distinct `CLASS_NAME`
value; the group of a key holds exactly the rows carrying that value, in their
original order. -/
def groupbyClassName (rows : List LandUseRow) : List (String × List LandUseRow) :=
  (classNameKeys rows).map (fun k => (k, rows.filter (fun r => r.class_name == k)))

theorem classNameKeys_nodup (rows : List LandUseRow) : (classNameKeys rows).Nodup :=
  ((sortStrings_perm _).nodup_iff).mpr (List.nodup_dedup _)

theorem mem_classNameKeys (rows : List LandUseRow) (k : String) :
    k ∈ classNameKeys rows ↔ k ∈ rows.map (fun r => r.class_name) :=
  (sortStrings_perm _).mem_iff.trans List.mem_dedup

/-- The output file name of the fan-out loop for a group key:
`f"LU_{key}.shp"`. -/
def luFileName (key : String) : String := "LU_" ++ key ++ ".shp"

theorem luFileName_injective : Function.Injective luFileName := by
  intro a b h
  have hd : ("LU_" ++ a ++ ".shp").data = ("LU_" ++ b ++ ".shp").data :=
    congrArg String.data h
  simp only [String.data_append, List.append_assoc] at hd
  have h2 := List.append_cancel_left hd
  have h3 := List.append_cancel_right h2
  exact congrArg String.mk h3

/-- The grouping-and-fan-out loop
`for key, group in data_set.groupby("CLASS_NAME"): group.to_file(DATA_DIRECTORY / f"LU_{key}.shp")`:
the list of (file name, rows written) pairs it produces, in loop order. -/
def fanOutWrites (rows : List LandUseRow) : List (String × List LandUseRow) :=
  (groupbyClassName rows).map (fun kg => (luFileName kg.1, kg.2))

theorem fanOutWrites_fst (rows : List LandUseRow) :
    (fanOutWrites rows).map Prod.fst = (classNameKeys rows).map luFileName := by
  simp [fanOutWrites, groupbyClassName, List.map_map, Function.comp_def]

/-- Claim C1: the fan-out loop writes exactly one file `LU_<key>.shp` per
distinct `CLASS_NAME` value, the rows written for a key are exactly the input
rows whose `CLASS_NAME` equals that key, and every input row is written to
exactly one of the output files. -/
theorem c1_groupby_fanout_partition (rows : List LandUseRow) :
    ((fanOutWrites rows).map Prod.fst).Nodup
    ∧ (∀ k : String, luFileName k ∈ (fanOutWrites rows).map Prod.fst
        ↔ k ∈ rows.map (fun r => r.class_name))
    ∧ (∀ fn g, (fn, g) ∈ fanOutWrites rows
        → ∃ k, fn = luFileName k ∧ g = rows.filter (fun r => r.class_name == k))
    ∧ (∀ r ∈ rows, (fanOutWrites rows).countP (fun fg => decide (r ∈ fg.2)) = 1) := by
  refine ⟨?_, fun k => ?_, fun fn g hmem => ?_, fun r hr => ?_⟩
  · rw [fanOutWrites_fst]
    exact (classNameKeys_nodup rows).map luFileName_injective
  · rw [fanOutWrites_fst]
    exact (List.mem_map_of_injective luFileName_injective).trans (mem_classNameKeys rows k)
  · simp only [fanOutWrites, groupbyClassName, List.map_map, List.mem_map,
      Function.comp_def] at hmem
    obtain ⟨k, -, hk⟩ := hmem
    rw [Prod.ext_iff] at hk
    exact ⟨k, hk.1.symm, hk.2.symm⟩
  · have h1 : (fanOutWrites rows).countP (fun fg => decide (r ∈ fg.2))
        = (classNameKeys rows).countP
            (fun k => decide (r ∈ rows.filter (fun s => s.class_name == k))) := by
      unfold fanOutWrites groupbyClassName
      rw [List.countP_map, List.countP_map]
      rfl
    have h2 : (classNameKeys rows).countP
          (fun k => decide (r ∈ rows.filter (fun s => s.class_name == k)))
        = (classNameKeys rows).countP (fun k => k == r.class_name) := by
      apply List.countP_congr
      intro k _
      by_cases hk : k = r.class_name
      · subst hk; simp [List.mem_filter, hr]
      · have hk2 : ¬ (r.class_name = k) := fun h => hk h.symm
        simp [List.mem_filter, hk, hk2]
    have h3 : (classNameKeys rows).count r.class_name = 1 := by
      refine Nat.le_antisymm (List.nodup_iff_count_le_one.mp (classNameKeys_nodup rows) _) ?_
      refine Nat.succ_le_of_lt (List.count_pos_iff.mpr ?_)
      exact (mem_classNameKeys rows r.class_name).mpr (List.mem_map_of_mem _ hr)
    rw [h1, h2]
    exact h3

/-! ## Per-class area summary -/

/-- The area of a row's geometry.  The cell `data_set["area"] = data_set.area`
stores exactly this value in the `area` column, and
`data_set.groupby("CLASS_NAME").area` selects that column group-wise. -/
def rowArea (r : LandUseRow) : Rat := r.geometry.area

/-- `area_information = data_set.groupby("CLASS_NAME").area.sum()`: for each
group key, the sum of the `area` column over the group's rows. -/
def areaInformation (rows : List LandUseRow) : List (String × Rat) :=
  (groupbyClassName rows).map (fun kg => (kg.1, (kg.2.map rowArea).sum))

theorem sum_map_ite_add (c : String) (x : Rat) (f : String → Rat) :
    ∀ keys : List String, keys.Nodup → c ∈ keys →
      (keys.map (fun k => if k = c then x + f k else f k)).sum = x + (keys.map f).sum
  | [], _, hc => absurd hc (List.not_mem_nil c)
  | k :: ks, hnd, hc => by
    rcases List.mem_cons.mp hc with h | h
    · subst h
      have hnot : c ∉ ks := (List.nodup_cons.mp hnd).1
      simp only [List.map_cons, List.sum_cons, if_pos rfl]
      have heq : (ks.map (fun k2 => if k2 = c then x + f k2 else f k2)).sum
          = (ks.map f).sum := by
        congr 1
        apply List.map_congr_left
        intro a ha
        have hak : ¬ (a = c) := fun h2 => hnot (h2 ▸ ha)
        simp [hak]
      rw [heq, if_pos trivial]; ring
    · have hkc : ¬ (k = c) := fun h2 => (List.nodup_cons.mp hnd).1 (by rw [h2]; exact h)
      simp only [List.map_cons, List.sum_cons, if_neg hkc]
      rw [sum_map_ite_add c x f ks (List.nodup_cons.mp hnd).2 h]
      ring

/-- Splitting a sum of row values along a family of distinct keys covering all
rows reproduces the plain sum over the rows. -/
theorem sum_filter_partition (f : LandUseRow → Rat) :
    ∀ (rows : List LandUseRow) (keys : List String), keys.Nodup →
      (∀ r ∈ rows, r.class_name ∈ keys) →
      (keys.map (fun k => ((rows.filter (fun r => r.class_name == k)).map f).sum)).sum
        = (rows.map f).sum
  | [], keys, _, _ => by simp
  | r :: rest, keys, hnd, hcov => by
    have hr : r.class_name ∈ keys := hcov r (List.mem_cons_self r rest)
    have ih := sum_filter_partition f rest keys hnd
      (fun s hs => hcov s (List.mem_cons_of_mem r hs))
    have hmap :
        keys.map (fun k => (((r :: rest).filter (fun s => s.class_name == k)).map f).sum)
          = keys.map (fun k => if k = r.class_name
              then f r + ((rest.filter (fun s => s.class_name == k)).map f).sum
              else ((rest.filter (fun s => s.class_name == k)).map f).sum) := by
      apply List.map_congr_left
      intro k _
      by_cases hk : k = r.class_name
      · subst hk
        simp [List.filter_cons]
      · have hck : ¬ (r.class_name = k) := fun h2 => hk h2.symm
        simp [List.filter_cons, hck, hk]
    rw [hmap, sum_map_ite_add r.class_name (f r) _ keys hnd hr, ih]
    simp

/-- Claim C3: the per-class area summary has one entry per distinct
`CLASS_NAME` value; the entry of a key is the sum of the geometry areas of
exactly the rows carrying that value; and consequently the summary's total
equals the total area over all rows (no row is dropped or double counted). -/
theorem c3_groupby_area_sum (rows : List LandUseRow) :
    ((areaInformation rows).map Prod.fst).Nodup
    ∧ (∀ k : String, k ∈ (areaInformation rows).map Prod.fst
        ↔ k ∈ rows.map (fun r => r.class_name))
    ∧ (∀ k s, (k, s) ∈ areaInformation rows
        → s = ((rows.filter (fun r => r.class_name == k)).map rowArea).sum)
    ∧ ((areaInformation rows).map Prod.snd).sum = (rows.map rowArea).sum := by
  have hfst : (areaInformation rows).map Prod.fst = classNameKeys rows := by
    simp [areaInformation, groupbyClassName, List.map_map, Function.comp_def]
  refine ⟨?_, fun k => ?_, fun k s hmem => ?_, ?_⟩
  · rw [hfst]; exact classNameKeys_nodup rows
  · rw [hfst]; exact mem_classNameKeys rows k
  · simp only [areaInformation, groupbyClassName, List.map_map, List.mem_map,
      Function.comp_def] at hmem
    obtain ⟨k2, -, hk⟩ := hmem
    rw [Prod.mk.injEq] at hk
    obtain ⟨rfl, rfl⟩ := hk
    rfl
  · have hsnd : (areaInformation rows).map Prod.snd
        = (classNameKeys rows).map
            (fun k => ((rows.filter (fun r => r.class_name == k)).map rowArea).sum) := by
      simp [areaInformation, groupbyClassName, List.map_map, Function.comp_def]
    rw [hsnd]
    exact sum_filter_partition rowArea rows (classNameKeys rows) (classNameKeys_nodup rows)
      (fun r hr => (mem_classNameKeys rows r.class_name).mpr (List.mem_map_of_mem _ hr))

/-! ## The two ways of computing row areas -/

/-- The `area` property of the GeoDataFrame: the series of the areas of the
rows' geometries, indexed like the data set. -/
def areaSeries (rows : List LandUseRow) : List Rat := rows.map rowArea

/-- The iterrows pattern of the first loop: for each row of `data_set[:5]`,
`polygon_area = row["geometry"].area`. -/
def iterrowsAreas (rows : List LandUseRow) : List Rat :=
  (rows.take 5).map (fun row => row.geometry.area)

/-- The second loop: for each `(i, row)` yielded by `data_set[:5].iterrows()`,
`polygon_area = data_set.area[i]` (a positional lookup in the area series,
since the data set carries the default range index). -/
def vectorizedAreas (rows : List LandUseRow) : List Rat :=
  ((rows.take 5).enum).map (fun ir => (areaSeries rows).getD ir.1 0)

/-- Claim C8: the two ways the notebook computes a row's polygon area agree:
at every row index `i` the iterrows value `row["geometry"].area` equals the
vectorized value `data_set.area[i]`, and the two loops print the same list of
areas. -/
theorem c8_iterrows_vectorized_area_agree (rows : List LandUseRow) :
    iterrowsAreas rows = vectorizedAreas rows
    ∧ ∀ (i : Nat) (h : i < rows.length),
        (rows.get ⟨i, h⟩).geometry.area = (areaSeries rows).getD i 0 := by
  have key : ∀ (i : Nat) (h : i < rows.length),
      (areaSeries rows).getD i 0 = (rows.get ⟨i, h⟩).geometry.area := by
    intro i h
    have hl : i < (areaSeries rows).length := by simpa [areaSeries] using h
    rw [List.getD_eq_getElem _ _ hl]
    simp [areaSeries, rowArea]
  constructor
  · apply List.ext_getElem
    · simp [iterrowsAreas, vectorizedAreas]
    · intro i h1 h2
      have htk : i < (rows.take 5).length := by simpa [iterrowsAreas] using h1
      have hi : i < rows.length := lt_of_lt_of_le htk (by simp [List.length_take])
      simp only [iterrowsAreas, vectorizedAreas, List.getElem_map, List.getElem_enum]
      rw [key i hi]
      simp [List.getElem_take]
  · intro i h
    exact (key i h).symm

/-! ## Data frames, variable bindings, and the non-mutating operations

For the frame-effect claim the data set is kept generic: a data frame is a
list of column names together with rows of cells.  Python variables are
modelled by an environment of references into a heap of data-frame objects, so
that "returns a new data frame, the original is unchanged" is expressible:
an assignment allocates a fresh object and never writes to an existing one,
matching the copying semantics of `DataFrame.rename(columns=...)` (default
`inplace=False`) and of boolean-mask selection `df[mask]`. -/

/-- A cell value of a data frame. -/
inductive Value
  | intV : Int → Value
  | strV : String → Value
  | geomV : Geometry → Value
deriving DecidableEq, Repr

/-- A (geo)pandas data frame: column names, and rows of cells. -/
structure DataFrame where
  cols : List String
  rows : List (List Value)
deriving DecidableEq, Repr

/-- `df.rename(columns=m)`: a data frame whose column names are mapped through
`m` (names not in `m` are unchanged); the rows and values are those of `df`.
The notebooks call it as
`data_set.rename(columns={"KKOD": "ID_CLASS", "KATEGORI": "CLASS_NAME"})` and
`gdf.rename(columns={'FID': 'FID1'})`. -/
def DataFrame.renameCols (df : DataFrame) (m : List (String × String)) : DataFrame :=
  { cols := df.cols.map (fun c => ((m.lookup c).getD c)), rows := df.rows }

/-- Position of a column in a data frame. -/
def DataFrame.colIdx (df : DataFrame) (c : String) : Option Nat :=
  df.cols.indexOf? c

/-- `df[df.col == v]`: boolean-mask row selection, e.g.
`data_set[data_set.ID_CLASS == 901]`: the same columns, and exactly the rows
whose cell in `col` equals `v`. -/
def DataFrame.selectEq (df : DataFrame) (col : String) (v : Value) : DataFrame :=
  { cols := df.cols,
    rows := df.rows.filter (fun row => (df.colIdx col).bind (fun j => row[j]?) == some v) }

/-- A heap of data-frame objects (a reference is a position in the list) and
an environment binding Python variable names to references. -/
structure PyState where
  heap : List DataFrame
  env : List (String × Nat)

/-- The right-hand sides of the cited assignments. -/
inductive RhsExpr
  | renameE (y : String) (m : List (String × String))
  | selectEqE (y : String) (col : String) (v : Value)

/-- Evaluate a right-hand side to the data frame it returns. -/
def evalRhs (s : PyState) : RhsExpr → Option DataFrame
  | .renameE y m =>
    (s.env.lookup y).bind (fun r => (s.heap[r]?).map (fun df => df.renameCols m))
  | .selectEqE y col v =>
    (s.env.lookup y).bind (fun r => (s.heap[r]?).map (fun df => df.selectEq col v))

/-- Executing the assignment `x = rhs`: the right-hand side allocates a fresh
data-frame object, and `x` is bound to it (on a name error nothing happens). -/
def execAssign (s : PyState) (x : String) (rhs : RhsExpr) : PyState :=
  match evalRhs s rhs with
  | none => s
  | some df => { heap := s.heap ++ [df], env := (x, s.heap.length) :: s.env }

/-- Claim C10: boolean-mask selection and column renaming are non-mutating:
executing either assignment leaves every pre-existing data-frame object (in
particular the one the operated-on variable refers to) with exactly its
previous columns, rows and values, leaves every other variable binding
unchanged, and binds the assigned variable to a freshly allocated frame: for
the selection, the same columns and exactly the rows whose cell equals the
compared value; for the rename, the mapped column names over the unchanged
rows. -/
theorem c10_select_rename_non_mutating (s : PyState) (x y : String)
    (m : List (String × String)) (col : String) (v : Value) :
    (∀ rhs : RhsExpr, ∀ i : Nat, i < s.heap.length →
        (execAssign s x rhs).heap[i]? = s.heap[i]?)
    ∧ (∀ rhs : RhsExpr, ∀ z : String, z ≠ x →
        (execAssign s x rhs).env.lookup z = s.env.lookup z)
    ∧ (∀ r df, s.env.lookup y = some r → s.heap[r]? = some df →
        ((execAssign s x (.selectEqE y col v)).env.lookup x = some s.heap.length
          ∧ (execAssign s x (.selectEqE y col v)).heap[s.heap.length]?
              = some (df.selectEq col v)
          ∧ (df.selectEq col v).cols = df.cols
          ∧ (df.selectEq col v).rows
              = df.rows.filter (fun row => (df.colIdx col).bind (fun j => row[j]?) == some v))
        ∧ ((execAssign s x (.renameE y m)).env.lookup x = some s.heap.length
          ∧ (execAssign s x (.renameE y m)).heap[s.heap.length]? = some (df.renameCols m)
          ∧ (df.renameCols m).cols = df.cols.map (fun c => ((m.lookup c).getD c))
          ∧ (df.renameCols m).rows = df.rows)) := by
  refine ⟨fun rhs i hi => ?_, fun rhs z hz => ?_, fun r df hy hdf => ?_⟩
  · unfold execAssign
    cases hev : evalRhs s rhs with
    | none => rfl
    | some d => simp [List.getElem?_append, hi]
  · unfold execAssign
    cases hev : evalRhs s rhs with
    | none => rfl
    | some d => simp [List.lookup, beq_eq_false_iff_ne.mpr hz]
  · have hsel : evalRhs s (.selectEqE y col v) = some (df.selectEq col v) := by
      simp [evalRhs, hy, hdf]
    have hren : evalRhs s (.renameE y m) = some (df.renameCols m) := by
      simp [evalRhs, hy, hdf]
    refine ⟨⟨?_, ?_, rfl, rfl⟩, ⟨?_, ?_, rfl, rfl⟩⟩ <;>
      simp [execAssign, hsel, hren, List.lookup, List.getElem?_concat_length]

/-! ## File paths

The notebooks set `NOTEBOOK_PATH = pathlib.Path().resolve()` and
`DATA_DIRECTORY = NOTEBOOK_PATH / "data"`.  A path is modelled by its list of
components (`parts`); the notebook path stays a parameter, since it depends on
where the repository is checked out. -/

/-- A `pathlib` path: its list of components. -/
structure PurePath where
  parts : List String
deriving DecidableEq, Repr

/-- The `/` operator on paths, as the notebooks use it: appending a plain file
or directory name (a nonempty component without a separator) to a base path. -/
def PurePath.div (p : PurePath) (n : String) : PurePath := ⟨p.parts ++ [n]⟩

/-- `p.parent`: the path without its final component. -/
def PurePath.parent (p : PurePath) : PurePath := ⟨p.parts.dropLast⟩

/-- `p.name`: the final component of a path. -/
def PurePath.name (p : PurePath) : String := p.parts.getLast?.getD ""

/-- `DATA_DIRECTORY = NOTEBOOK_PATH / "data"`. -/
def dataDirectoryOf (nb : PurePath) : PurePath := nb.div "data"

/-- A target of a data read or write: a filesystem path, or a remote URL. -/
inductive IOTarget
  | path (p : PurePath)
  | url (s : String)
deriving DecidableEq, Repr

/-- The URL of the Eurostat NUTS regions dataset. -/
def nutsUrl : String :=
  "https://gisco-services.ec.europa.eu/distribution/v2/nuts/shp/NUTS_RG_60M_2021_3035.shp.zip"

/-- The URL of the Stockholm WFS endpoint. -/
def wfsUrl : String :=
  "https://openstreetgs.stockholm.se/geoservice/api/8a5977e3-3c63-446b-90c0-0c079d0bef55/wfs"

/-- Every data read and write target of the four notebooks, in cell order:
the vector-I/O notebook (UGA shapefile, NUTS zip URL, two bare-name GPKG
writes, two `DATA_DIRECTORY` writes, the WFS fetch with its bare-name GML
round trip, a `DATA_DIRECTORY` GPKG write), the file-path notebook (two UGA
reads), the processing notebook (land-use read, water-bodies write, the
fan-out writes -- one per distinct `CLASS_NAME` value, passed in as `luKeys`
-- and the relative-string CSV write), and the CRS notebook (NUTS zip URL). -/
def repoIOTargets (nb : PurePath) (luKeys : List String) : List IOTarget :=
  [ .path ((dataDirectoryOf nb).div "UGA_adm1_2011.shp"),
    .url nutsUrl,
    .path ⟨["nuts_1.gpkg"]⟩,
    .path ⟨["nuts_1.gpkg"]⟩,
    .path ((dataDirectoryOf nb).div "nuts_1.gpkg"),
    .path ((dataDirectoryOf nb).div "nuts_1.gjson"),
    .url wfsUrl,
    .path ⟨["cykelpump_punkt.gml"]⟩,
    .path ⟨["cykelpump_punkt.gml"]⟩,
    .path ((dataDirectoryOf nb).div "cykelpump_punkt.gpkg"),
    .path ((dataDirectoryOf nb).div "UGA_adm1_2011.shp"),
    .path ((dataDirectoryOf nb).div "UGA_adm1_2011.shp"),
    .path ((dataDirectoryOf nb).div "Landusepolygon.shp"),
    .path ((dataDirectoryOf nb).div "water_bodies.shp") ]
  ++ luKeys.map (fun k => .path ((dataDirectoryOf nb).div (luFileName k)))
  ++ [ .path ⟨["data", "area_by_LU_class.csv"]⟩,
       .url nutsUrl ]

/-- Claim C7 as stated is false: not every data file path used for reading or
writing is `DATA_DIRECTORY` with a file name appended.  With the notebook
directory `/home/user`, the GeoPackage write target `'nuts_1.gpkg'` (a bare
relative name) is not `DATA_DIRECTORY / n` for any `n`. -/
theorem c7_counterexample :
    ¬ (∀ t ∈ repoIOTargets ⟨["", "home", "user"]⟩ [], ∃ n : String,
        t = .path ((dataDirectoryOf ⟨["", "home", "user"]⟩).div n)) := by
  intro h
  obtain ⟨n, hn⟩ := h (.path ⟨["nuts_1.gpkg"]⟩) (by decide)
  simp [dataDirectoryOf, PurePath.div] at hn

/-- Claim C7, amended: `B / n` (for a plain file name `n`: nonempty, without a
separator) is the path with parent `B` and final component `n`, and
`DATA_DIRECTORY` is the notebook directory with the single component `"data"`
appended; the data file paths used for reading or writing are `DATA_DIRECTORY`
with a file name appended, except the bare relative targets `'nuts_1.gpkg'`,
`'cykelpump_punkt.gml'` and `"data/area_by_LU_class.csv"` and the two remote
URLs. -/
theorem c7_amended_path_join (B : PurePath) (n : String)
    (_hn : n ≠ "") (_hs : ¬ ('/' ∈ n.data)) (nb : PurePath) (luKeys : List String) :
    (B.div n).parent = B
    ∧ (B.div n).name = n
    ∧ dataDirectoryOf nb = ⟨nb.parts ++ ["data"]⟩
    ∧ ∀ t ∈ repoIOTargets nb luKeys,
        (∃ fn : String, t = .path ((dataDirectoryOf nb).div fn))
        ∨ t ∈ ([.path ⟨["nuts_1.gpkg"]⟩, .path ⟨["cykelpump_punkt.gml"]⟩,
                .path ⟨["data", "area_by_LU_class.csv"]⟩,
                .url nutsUrl, .url wfsUrl] : List IOTarget) := by
  refine ⟨?_, ?_, rfl, fun t ht => ?_⟩
  · simp [PurePath.div, PurePath.parent, List.dropLast_concat]
  · simp [PurePath.div, PurePath.name, List.getLast?_concat]
  · unfold repoIOTargets at ht
    rcases List.mem_append.mp ht with h12 | hB
    · rcases List.mem_append.mp h12 with hA | hMap
      · simp only [List.mem_cons, List.not_mem_nil, or_false] at hA
        rcases hA with h | h | h | h | h | h | h | h | h | h | h | h | h | h
        · exact Or.inl ⟨"UGA_adm1_2011.shp", h⟩
        · exact Or.inr (by simp [h])
        · exact Or.inr (by simp [h])
        · exact Or.inr (by simp [h])
        · exact Or.inl ⟨"nuts_1.gpkg", h⟩
        · exact Or.inl ⟨"nuts_1.gjson", h⟩
        · exact Or.inr (by simp [h])
        · exact Or.inr (by simp [h])
        · exact Or.inr (by simp [h])
        · exact Or.inl ⟨"cykelpump_punkt.gpkg", h⟩
        · exact Or.inl ⟨"UGA_adm1_2011.shp", h⟩
        · exact Or.inl ⟨"UGA_adm1_2011.shp", h⟩
        · exact Or.inl ⟨"Landusepolygon.shp", h⟩
        · exact Or.inl ⟨"water_bodies.shp", h⟩
      · obtain ⟨k, -, h⟩ := List.mem_map.mp hMap
        exact Or.inl ⟨luFileName k, h.symm⟩
    · simp only [List.mem_cons, List.not_mem_nil, or_false] at hB
      rcases hB with h | h
      · exact Or.inr (by simp [h])
      · exact Or.inr (by simp [h])

/-! ## The processing notebook's sequence of library calls -/

/-- A library call observable in a notebook run: a file read, a plot, a
printed line, a vector-file write, or a CSV write. -/
inductive LibCall
  | readFile (file : String)
  | plot
  | printOut
  | toFile (file : String)
  | toCsv (file : String)
deriving DecidableEq, Repr

/-- The sequence of library calls (reads, plots, prints, writes) the
processing notebook issues when run on the land-use data set `rows`, cell by
cell: the read-and-plot cell, the plot cell, the row-4 area print, the two
`data_set[:5].iterrows()` print loops, the water-bodies plot and write, the
per-group row-count print loop, the `get_group('Vattenyta')` plot, the
grouping fan-out writes, and the area-summary CSV write.  (Cells that only
display a value issue none of these calls.) -/
def processingNotebookCalls (rows : List LandUseRow) : List LibCall :=
  [LibCall.readFile "Landusepolygon.shp", LibCall.plot]
  ++ [LibCall.plot]
  ++ [LibCall.printOut]
  ++ (rows.take 5).map (fun _ => LibCall.printOut)
  ++ (rows.take 5).map (fun _ => LibCall.printOut)
  ++ [LibCall.plot]
  ++ [LibCall.toFile "water_bodies.shp"]
  ++ (classNameKeys rows).map (fun _ => LibCall.printOut)
  ++ [LibCall.plot]
  ++ (classNameKeys rows).map (fun k => LibCall.toFile (luFileName k))
  ++ [LibCall.toCsv "data/area_by_LU_class.csv"]

/-- A unit square polygon, used as a concrete example geometry. -/
def squareGeom : Geometry := ⟨[(0, 0), (1, 0), (1, 1), (0, 1)]⟩

/-- A concrete land-use data set: five water-body rows. -/
def exRows1 : List LandUseRow := List.replicate 5 ⟨901, "Vattenyta", squareGeom⟩

/-- A concrete land-use data set of the same size with two terrain classes. -/
def exRows2 : List LandUseRow :=
  List.replicate 4 (⟨901, "Vattenyta", squareGeom⟩ : LandUseRow) ++ [⟨902, "Skog", squareGeom⟩]

/-- Claim C6 as stated is false: the sequence of library calls the processing
notebook issues does depend on the content of the input data.  Two five-row
inputs that differ in their distinct `CLASS_NAME` values make the fan-out loop
issue different write calls. -/
theorem c6_counterexample :
    processingNotebookCalls exRows1 ≠ processingNotebookCalls exRows2 := by decide

/-- Claim C6, amended: the kinds and order of operations are fixed by the cell
sequence, but the calls issued inside the loops depend on the input data:
any two input data sets that agree on the number of iterated rows
(`min 5 length`) and on the distinct `CLASS_NAME` values make the notebook
issue the same sequence of library calls. -/
theorem c6_amended_trace_determined (rows1 rows2 : List LandUseRow)
    (hlen : (rows1.take 5).length = (rows2.take 5).length)
    (hkeys : classNameKeys rows1 = classNameKeys rows2) :
    processingNotebookCalls rows1 = processingNotebookCalls rows2 := by
  have h1 : (rows1.take 5).map (fun _ => LibCall.printOut)
      = (rows2.take 5).map (fun _ => LibCall.printOut) := by
    have a1 : (rows1.take 5).map (fun _ => LibCall.printOut)
        = List.replicate (rows1.take 5).length LibCall.printOut := by simp
    have a2 : (rows2.take 5).map (fun _ => LibCall.printOut)
        = List.replicate (rows2.take 5).length LibCall.printOut := by simp
    rw [a1, a2, hlen]
  unfold processingNotebookCalls
  rw [hkeys, h1]

/-! ## The WFS fetch-and-correct cell

The cell performs, in source order: the network fetch (`wfs.getfeature`
followed by `response.read()`), the write of the GML file, the
`gpd.read_file` of it, the `set_crs("EPSG:3011")` call, the pure coordinate
swap over the geometry column, and the GeoPackage write.  Each fallible
library call is an oracle describing its outcome; the cell contains no
`try`/`except` and no loop, so it performs each call at most once, in order,
and the first failing call aborts the cell with that same error. -/

/-- The observable steps of the WFS cell. -/
inductive WfsStep
  | getfeature
  | writeGml
  | readGml
  | setCrs
  | toFileGpkg
deriving DecidableEq, Repr

/-- Run the WFS cell against outcomes of its library calls, returning the
trace of steps performed (in order, a failed step included) and the cell's
result: the corrected features written, or the first error raised. -/
def wfsCellRun (fetch : Except String (List Nat))
    (writeG : List Nat → Except String Unit)
    (readG : Except String (List Point))
    (setC : List Point → Except String (List Point))
    (toF : List Point → Except String Unit) :
    List WfsStep × Except String (List Point) :=
  match fetch with
  | .error e => ([.getfeature], .error e)
  | .ok bytes =>
    match writeG bytes with
    | .error e => ([.getfeature, .writeGml], .error e)
    | .ok _ =>
      match readG with
      | .error e => ([.getfeature, .writeGml, .readGml], .error e)
      | .ok feats =>
        match setC feats with
        | .error e => ([.getfeature, .writeGml, .readGml, .setCrs], .error e)
        | .ok pts =>
          let corrected := pts.map swapXY
          match toF corrected with
          | .error e =>
            ([.getfeature, .writeGml, .readGml, .setCrs, .toFileGpkg], .error e)
          | .ok _ =>
            ([.getfeature, .writeGml, .readGml, .setCrs, .toFileGpkg], .ok corrected)

theorem wfsCellRun_trace_cases (fetch : Except String (List Nat))
    (writeG : List Nat → Except String Unit) (readG : Except String (List Point))
    (setC : List Point → Except String (List Point)) (toF : List Point → Except String Unit) :
    (wfsCellRun fetch writeG readG setC toF).1 ∈
      [[WfsStep.getfeature],
       [WfsStep.getfeature, WfsStep.writeGml],
       [WfsStep.getfeature, WfsStep.writeGml, WfsStep.readGml],
       [WfsStep.getfeature, WfsStep.writeGml, WfsStep.readGml, WfsStep.setCrs],
       [WfsStep.getfeature, WfsStep.writeGml, WfsStep.readGml, WfsStep.setCrs,
        WfsStep.toFileGpkg]] := by
  unfold wfsCellRun
  rcases fetch with e | bytes
  · simp
  · rcases hw : writeG bytes with e | u
    · simp [hw]
    · rcases hr : readG with e | feats
      · simp [hw, hr]
      · rcases hsc : setC feats with e | pts
        · simp [hw, hr, hsc]
        · rcases ht : toF (pts.map swapXY) with e | u2 <;> simp [hw, hr, hsc, ht]

/-- Claim C4: the WFS cell catches and transforms no error and retries
nothing: the network fetch is performed exactly once per run, every step is
performed at most once, a failure of any library call (network fetch, file
write, file read, CRS assignment, output write) propagates unchanged as the
cell's result, and when every call succeeds the cell writes the corrected
(swapped) features. -/
theorem c4_errors_propagate_fetch_once (fetch : Except String (List Nat))
    (writeG : List Nat → Except String Unit) (readG : Except String (List Point))
    (setC : List Point → Except String (List Point)) (toF : List Point → Except String Unit) :
    ((wfsCellRun fetch writeG readG setC toF).1.count WfsStep.getfeature = 1)
    ∧ (∀ s : WfsStep, (wfsCellRun fetch writeG readG setC toF).1.count s ≤ 1)
    ∧ (∀ e, fetch = .error e
        → (wfsCellRun fetch writeG readG setC toF).2 = .error e)
    ∧ (∀ e b, fetch = .ok b → writeG b = .error e
        → (wfsCellRun fetch writeG readG setC toF).2 = .error e)
    ∧ (∀ e b, fetch = .ok b → writeG b = .ok () → readG = .error e
        → (wfsCellRun fetch writeG readG setC toF).2 = .error e)
    ∧ (∀ e b fs, fetch = .ok b → writeG b = .ok () → readG = .ok fs → setC fs = .error e
        → (wfsCellRun fetch writeG readG setC toF).2 = .error e)
    ∧ (∀ e b fs pts, fetch = .ok b → writeG b = .ok () → readG = .ok fs → setC fs = .ok pts
        → toF (pts.map swapXY) = .error e
        → (wfsCellRun fetch writeG readG setC toF).2 = .error e)
    ∧ (∀ b fs pts, fetch = .ok b → writeG b = .ok () → readG = .ok fs → setC fs = .ok pts
        → toF (pts.map swapXY) = .ok ()
        → (wfsCellRun fetch writeG readG setC toF).2 = .ok (pts.map swapXY)) := by
  refine ⟨?_, ?_, fun e he => ?_, fun e b hb hw => ?_, fun e b hb hw hr => ?_,
    fun e b fs hb hw hr hs2 => ?_, fun e b fs pts hb hw hr hs2 ht => ?_,
    fun b fs pts hb hw hr hs2 ht => ?_⟩
  · have h := wfsCellRun_trace_cases fetch writeG readG setC toF
    simp only [List.mem_cons, List.not_mem_nil, or_false] at h
    rcases h with h | h | h | h | h <;> rw [h] <;> decide
  · intro s
    have h := wfsCellRun_trace_cases fetch writeG readG setC toF
    simp only [List.mem_cons, List.not_mem_nil, or_false] at h
    rcases h with h | h | h | h | h <;> rw [h] <;> rcases s <;> decide
  · simp [wfsCellRun, he]
  · simp [wfsCellRun, hb, hw]
  · simp [wfsCellRun, hb, hw, hr]
  · simp [wfsCellRun, hb, hw, hr, hs2]
  · simp [wfsCellRun, hb, hw, hr, hs2, ht]
  · simp [wfsCellRun, hb, hw, hr, hs2, ht]

/-! ## CRS descriptors -/

/-- Modelled from the spec: the `pyproj` map-projection library is a
third-party dependency whose code is not part of this repository's sources;
the spec describes the conversions between CRS descriptor forms
("EPSG code ↔ proj string ↔ WKT") as pure call-throughs that preserve the
identified reference system, with no transformation added by the repository's
own code.  A `pyproj.CRS` is modelled by the EPSG code identifying the
reference system when it has one (`to_epsg()` returns `None` otherwise). -/
structure PyprojCRS where
  epsg : Option Nat
deriving DecidableEq, Repr

/-- The numeric value of a decimal digit character. -/
def digitVal (c : Char) : Option Nat :=
  if 48 ≤ c.toNat ∧ c.toNat ≤ 57 then some (c.toNat - 48) else none

/-- Parse a run of decimal digit characters, accumulating left to right. -/
def parseDecAux : List Char → Nat → Option Nat
  | [], acc => some acc
  | c :: cs, acc =>
    match digitVal c with
    | none => none
    | some d => parseDecAux cs (acc * 10 + d)

/-- Parse a nonempty run of decimal digit characters. -/
def parseDecChars : List Char → Option Nat
  | [] => none
  | c :: cs => parseDecAux (c :: cs) 0

/-- Render a natural number in decimal (most significant digit first). -/
def decRender (n : Nat) : List Char :=
  if n = 0 then ['0'] else ((Nat.digits 10 n).map Nat.digitChar).reverse

theorem digitVal_digitChar (d : Nat) (hd : d < 10) : digitVal d.digitChar = some d := by
  interval_cases d <;> decide

theorem parseDecAux_append : ∀ (l1 l2 : List Char) (acc : Nat),
    parseDecAux (l1 ++ l2) acc = (parseDecAux l1 acc).bind (fun a => parseDecAux l2 a)
  | [], l2, acc => rfl
  | c :: cs, l2, acc => by
    cases hd : digitVal c with
    | none => simp [parseDecAux, hd]
    | some d =>
      simp only [List.cons_append, parseDecAux, hd]
      exact parseDecAux_append cs l2 (acc * 10 + d)

theorem parseDecAux_render : ∀ ds : List Nat, (∀ d ∈ ds, d < 10) → ∀ acc : Nat,
    parseDecAux ((ds.map Nat.digitChar).reverse) acc
      = some (acc * 10 ^ ds.length + Nat.ofDigits 10 ds)
  | [], _, acc => by simp [parseDecAux]
  | d :: rest, hds, acc => by
    have hd : d < 10 := hds d (by simp)
    have hrest : ∀ x ∈ rest, x < 10 := fun x hx => hds x (by simp [hx])
    simp only [List.map_cons, List.reverse_cons, parseDecAux_append,
      parseDecAux_render rest hrest acc]
    simp only [parseDecAux, digitVal_digitChar d hd, Option.some_bind]
    congr 1
    simp only [Nat.ofDigits_cons, List.length_cons]
    ring

theorem parseDecChars_eq (cs : List Char) (hne : cs ≠ []) :
    parseDecChars cs = parseDecAux cs 0 := by
  cases cs with
  | nil => exact absurd rfl hne
  | cons c cs2 => rfl

theorem parseDecChars_decRender (n : Nat) : parseDecChars (decRender n) = some n := by
  by_cases h : n = 0
  · subst h; rfl
  · unfold decRender
    rw [if_neg h]
    have hlt : ∀ d ∈ Nat.digits 10 n, d < 10 :=
      fun d hd => Nat.digits_lt_base (by norm_num) hd
    have hne : ((Nat.digits 10 n).map Nat.digitChar).reverse ≠ [] := by
      simp [Nat.digits_ne_nil_iff_ne_zero, h]
    rw [parseDecChars_eq _ hne, parseDecAux_render (Nat.digits 10 n) hlt 0]
    simp [Nat.ofDigits_digits]

/-- Strip an expected leading run of characters, returning the remainder. -/
def stripLeadChars : List Char → List Char → Option (List Char)
  | [], cs => some cs
  | _ :: _, [] => none
  | p :: ps, c :: cs => if c = p then stripLeadChars ps cs else none

theorem stripLeadChars_append : ∀ p rest : List Char, stripLeadChars p (p ++ rest) = some rest
  | [], _ => rfl
  | c :: ps, rest => by simp [stripLeadChars, stripLeadChars_append ps rest]

/-- `pyproj.CRS("EPSG:<code>")`: construct a CRS from an EPSG descriptor
string (a non-EPSG descriptor identifies no EPSG code in this model). -/
def pyprojCRSOfString (s : String) : PyprojCRS :=
  ⟨(stripLeadChars "EPSG:".data s.data).bind parseDecChars⟩

/-- `pyproj.CRS(gdf.crs)`: constructing a CRS from an existing CRS object
returns that same reference system. -/
def pyprojCRSOfCRS (c : PyprojCRS) : PyprojCRS := c

/-- `crs.to_epsg()`. -/
def PyprojCRS.to_epsg (c : PyprojCRS) : Option Nat := c.epsg

/-- `crs.to_proj4()`: the proj4-string descriptor of the reference system. -/
def PyprojCRS.to_proj4 (c : PyprojCRS) : String :=
  match c.epsg with
  | some n => "+init=epsg:" ++ String.mk (decRender n)
  | none => ""

/-- Parse a proj4-string descriptor back into a CRS. -/
def crsFromProj4 (s : String) : PyprojCRS :=
  ⟨(stripLeadChars "+init=epsg:".data s.data).bind parseDecChars⟩

/-- `crs.to_wkt()`: the WKT descriptor of the reference system (abridged to
its identifying authority entry). -/
def PyprojCRS.to_wkt (c : PyprojCRS) : String :=
  match c.epsg with
  | some n => "WKT[EPSG," ++ String.mk (decRender n) ++ "]"
  | none => ""

/-- Parse a WKT descriptor back into a CRS. -/
def crsFromWkt (s : String) : PyprojCRS :=
  ⟨(stripLeadChars "WKT[EPSG,".data s.data).bind
    (fun rest => if rest.getLast? = some ']' then parseDecChars rest.dropLast else none)⟩

/-- Claim C5: the CRS descriptor conversions are identity-preserving
call-throughs: `pyproj.CRS("EPSG:4326").to_epsg()` is `4326`; constructing a
CRS from the data set's CRS object preserves it; and for any CRS carrying an
EPSG code, converting to a proj4 string or to WKT and parsing back denotes
the same CRS, with `to_epsg()` returning that code. -/
theorem c5_crs_descriptor_roundtrips :
    ((pyprojCRSOfString "EPSG:4326").to_epsg = some 4326)
    ∧ (∀ c : PyprojCRS, pyprojCRSOfCRS c = c)
    ∧ (∀ (c : PyprojCRS) (n : Nat), c.epsg = some n →
        crsFromProj4 c.to_proj4 = c ∧ crsFromWkt c.to_wkt = c ∧ c.to_epsg = some n) := by
  refine ⟨by decide, fun c => rfl, fun c n h => ?_⟩
  cases c with
  | mk e =>
    simp only [PyprojCRS.mk.injEq] at h
    subst h
    refine ⟨?_, ?_, rfl⟩
    · have hdata : (PyprojCRS.to_proj4 ⟨some n⟩).data = "+init=epsg:".data ++ decRender n := by
        show ("+init=epsg:" ++ String.mk (decRender n)).data = _
        rw [String.data_append]
      unfold crsFromProj4
      rw [hdata, stripLeadChars_append]
      simp [parseDecChars_decRender]
    · have hdata : (PyprojCRS.to_wkt ⟨some n⟩).data
          = "WKT[EPSG,".data ++ (decRender n ++ [']']) := by
        show (("WKT[EPSG," ++ String.mk (decRender n)) ++ "]").data = _
        rw [String.data_append, String.data_append, List.append_assoc]
      unfold crsFromWkt
      rw [hdata, stripLeadChars_append]
      simp [parseDecChars_decRender]

/-! ## Concrete instances (witnesses) -/

/-- A triangle polygon, a second concrete example geometry. -/
def triangleGeom : Geometry := ⟨[(0, 0), (2, 0), (0, 2)]⟩

/-- Five water-body rows over the triangle geometry: differs from `exRows1`
in content but not in size or in distinct class names. -/
def exRows3 : List LandUseRow := List.replicate 5 ⟨901, "Vattenyta", triangleGeom⟩

/-- A concrete land-use data frame in the generic column model. -/
def exDF : DataFrame :=
  { cols := ["ID_CLASS", "CLASS_NAME", "geometry"],
    rows := [[.intV 901, .strV "Vattenyta", .geomV squareGeom],
             [.intV 902, .strV "Skog", .geomV squareGeom]] }

/-- A concrete Python state: one frame on the heap, bound to `data_set`. -/
def exState : PyState := { heap := [exDF], env := [("data_set", 0)] }

/-- Witness for C1: on a concrete two-class data set, the row of class
`"Skog"` is written to exactly one output file. -/
theorem c1_groupby_fanout_partition_witness :
    (⟨902, "Skog", squareGeom⟩ : LandUseRow) ∈ exRows2
    ∧ (fanOutWrites exRows2).countP
        (fun fg => decide ((⟨902, "Skog", squareGeom⟩ : LandUseRow) ∈ fg.2)) = 1 :=
  ⟨by decide, (c1_groupby_fanout_partition exRows2).2.2.2 ⟨902, "Skog", squareGeom⟩ (by decide)⟩

/-- Witness for C3: on the same concrete data set, the summary entry of
`"Skog"` is the filtered area sum. -/
theorem c3_groupby_area_sum_witness :
    ("Skog", ((exRows2.filter (fun r => r.class_name == "Skog")).map rowArea).sum)
      ∈ areaInformation exRows2
    ∧ ((exRows2.filter (fun r => r.class_name == "Skog")).map rowArea).sum
        = ((exRows2.filter (fun r => r.class_name == "Skog")).map rowArea).sum := by
  have hk : "Skog" ∈ classNameKeys exRows2 := by decide
  have h1 : ("Skog", exRows2.filter (fun r => r.class_name == "Skog"))
      ∈ groupbyClassName exRows2 :=
    List.mem_map_of_mem (fun k => (k, exRows2.filter (fun r => r.class_name == k))) hk
  have h2 : ("Skog", ((exRows2.filter (fun r => r.class_name == "Skog")).map rowArea).sum)
      ∈ areaInformation exRows2 :=
    List.mem_map_of_mem (fun kg => (kg.1, (kg.2.map rowArea).sum)) h1
  exact ⟨h2, (c3_groupby_area_sum exRows2).2.2.1 "Skog" _ h2⟩

/-- Witness for C4: a failed fetch aborts the WFS cell with that same error. -/
theorem c4_errors_propagate_fetch_once_witness :
    ((Except.error "connection refused" : Except String (List Nat))
        = Except.error "connection refused")
    ∧ (wfsCellRun (Except.error "connection refused") (fun _ => .ok ()) (.ok [])
        (fun pts => .ok pts) (fun _ => .ok ())).2 = .error "connection refused" :=
  ⟨rfl,
    (c4_errors_propagate_fetch_once (Except.error "connection refused") (fun _ => .ok ())
      (.ok []) (fun pts => .ok pts) (fun _ => .ok ())).2.2.1 "connection refused" rfl⟩

/-- Witness for C5: the round trips evaluated at the notebook's projected CRS,
EPSG:3035. -/
theorem c5_crs_descriptor_roundtrips_witness :
    (PyprojCRS.mk (some 3035)).epsg = some 3035
    ∧ (crsFromProj4 (PyprojCRS.to_proj4 ⟨some 3035⟩) = ⟨some 3035⟩
        ∧ crsFromWkt (PyprojCRS.to_wkt ⟨some 3035⟩) = ⟨some 3035⟩
        ∧ (PyprojCRS.mk (some 3035)).to_epsg = some 3035) :=
  ⟨rfl, c5_crs_descriptor_roundtrips.2.2 ⟨some 3035⟩ 3035 rfl⟩

/-- Witness for the amended C6: two concrete data sets with different
geometries but equal size and class names produce the same call sequence. -/
theorem c6_amended_trace_determined_witness :
    ((exRows1.take 5).length = (exRows3.take 5).length
      ∧ classNameKeys exRows1 = classNameKeys exRows3)
    ∧ processingNotebookCalls exRows1 = processingNotebookCalls exRows3 :=
  ⟨⟨by decide, by decide⟩,
    c6_amended_trace_determined exRows1 exRows3 (by decide) (by decide)⟩

/-- Witness for the amended C7: the path algebra and the target
classification evaluated at a concrete notebook directory. -/
theorem c7_amended_path_join_witness :
    ("water.shp" ≠ "" ∧ ¬ ('/' ∈ "water.shp".data))
    ∧ ((PurePath.div ⟨["", "home"]⟩ "water.shp").parent = ⟨["", "home"]⟩
      ∧ (PurePath.div ⟨["", "home"]⟩ "water.shp").name = "water.shp"
      ∧ dataDirectoryOf ⟨["", "home"]⟩ = ⟨(PurePath.mk ["", "home"]).parts ++ ["data"]⟩
      ∧ ∀ t ∈ repoIOTargets ⟨["", "home"]⟩ ["Skog"],
          (∃ fn : String, t = .path ((dataDirectoryOf ⟨["", "home"]⟩).div fn))
          ∨ t ∈ ([.path ⟨["nuts_1.gpkg"]⟩, .path ⟨["cykelpump_punkt.gml"]⟩,
                  .path ⟨["data", "area_by_LU_class.csv"]⟩,
                  .url nutsUrl, .url wfsUrl] : List IOTarget)) :=
  ⟨⟨by decide, by decide⟩,
    c7_amended_path_join ⟨["", "home"]⟩ "water.shp" (by decide) (by decide)
      ⟨["", "home"]⟩ ["Skog"]⟩

/-- Witness for C8: the pointwise area agreement evaluated at the first row
of a concrete data set. -/
theorem c8_iterrows_vectorized_area_agree_witness :
    0 < exRows1.length
    ∧ (exRows1.get ⟨0, by decide⟩).geometry.area = (areaSeries exRows1).getD 0 0 :=
  ⟨by decide, (c8_iterrows_vectorized_area_agree exRows1).2 0 (by decide)⟩

/-- Witness for C10: the selection and rename assignments evaluated on a
concrete heap and environment. -/
theorem c10_select_rename_non_mutating_witness :
    (exState.env.lookup "data_set" = some 0 ∧ exState.heap[0]? = some exDF)
    ∧ (((execAssign exState "water_bodies"
            (.selectEqE "data_set" "ID_CLASS" (.intV 901))).env.lookup "water_bodies"
          = some exState.heap.length
        ∧ (execAssign exState "water_bodies"
            (.selectEqE "data_set" "ID_CLASS" (.intV 901))).heap[exState.heap.length]?
          = some (exDF.selectEq "ID_CLASS" (.intV 901))
        ∧ (exDF.selectEq "ID_CLASS" (.intV 901)).cols = exDF.cols
        ∧ (exDF.selectEq "ID_CLASS" (.intV 901)).rows
          = exDF.rows.filter
              (fun row => (exDF.colIdx "ID_CLASS").bind (fun j => row[j]?) == some (.intV 901)))
      ∧ ((execAssign exState "water_bodies"
            (.renameE "data_set" [("FID", "FID1")])).env.lookup "water_bodies"
          = some exState.heap.length
        ∧ (execAssign exState "water_bodies"
            (.renameE "data_set" [("FID", "FID1")])).heap[exState.heap.length]?
          = some (exDF.renameCols [("FID", "FID1")])
        ∧ (exDF.renameCols [("FID", "FID1")]).cols
          = exDF.cols.map (fun c => (([("FID", "FID1")].lookup c).getD c))
        ∧ (exDF.renameCols [("FID", "FID1")]).rows = exDF.rows)) :=
  ⟨⟨rfl, rfl⟩,
    (c10_select_rename_non_mutating exState "water_bodies" "data_set" [("FID", "FID1")]
      "ID_CLASS" (.intV 901)).2.2 0 exDF rfl rfl⟩

end GSPL2
